import Mathlib

/-!

# Verification of the morse-quest signal-to-text pipeline

Shallow embedding of `src/pipewire.rs` (the `listen` process callback and its
helpers).  Audio samples are modelled as exact rationals, timestamps as natural
numbers of milliseconds, and the external `morse_codec` decoder as an abstract
state type with the four operations the callback uses.  Strings are treated as
sequences of characters (the decoded Morse text is ASCII, so Rust byte indexing
coincides with character indexing).

-/

set_option autoImplicit false

/-- Characters matched by the regex character class from
`Regex::new(r"\s+")` (Unicode White_Space). -/
def rustWhitespace : List Char :=
  [' ', '\t', '\n', '\x0b', '\x0c', '\r', '\u0085', ' ', ' ',
   ' ', ' ', ' ', ' ', ' ', ' ', ' ',
   ' ', ' ', ' ', ' ', ' ', ' ', ' ',
   ' ', '　']

/-- Whether a character is whitespace in the sense of the regex. -/
def isWs (c : Char) : Bool := rustWhitespace.contains c

/-- Collapse every maximal run of whitespace characters to a single space:
the effect of `whitespace_regex.replace_all(&msg, " ")` on a character list.
The flag records whether the previous character belonged to a whitespace run. -/
def collapseAux : Bool → List Char → List Char
  | _, [] => []
  | prevWs, c :: rest =>
    if isWs c then
      if prevWs then collapseAux true rest else ' ' :: collapseAux true rest
    else c :: collapseAux false rest

/-- Whitespace normalization of a message string (line 150 / 169 / 175 of
`pipewire.rs`). -/
def normalizeWs (s : String) : String := String.mk (collapseAux false s.data)

/-- Truncation to u32, as in `duration.as_millis() as u32` and u32 arithmetic. -/
def asU32 (n : ℕ) : ℕ := n % 4294967296

/-- Truncation to u16, as in `duration as u16` at the `signal_event` call. -/
def asU16 (n : ℕ) : ℕ := n % 65536

/-- Mirrors `let timeout_duration = 20 * dot_duration;` (u32 arithmetic). -/
def timeoutDuration (dot : ℕ) : ℕ := asU32 (20 * dot)

/-- Mirrors the peak loop: `let mut max: f32 = 0.0;` followed by
`max = max.max(sample.abs() as f32)` over the samples. -/
def maxAbs (cs : List ℚ) : ℚ := cs.foldl (fun m s => max m |s|) 0

/-- Mirrors line 132, `let filtered_samples = channel_samples;` — the
`BandpassFilter` constructed in the `param_changed` closure is never invoked
in the process closure, so this is a plain alias of the raw channel samples. -/
def filteredSamples (channel_samples : List ℚ) : List ℚ := channel_samples

/-- Truncation toward zero of `q * 30`, saturating below at 0: the value of
`(max * 30.0) as usize` on the exact rational `max`.  Written on the
numerator and denominator so that it evaluates by kernel reduction; the lemma
`scaleTrunc_eq_floor` certifies that on nonnegative inputs it is `⌊q * 30⌋₊`. -/
def scaleTrunc (q : ℚ) : ℕ := (q.num * 30).toNat / q.den

/-- Mirrors `let peak = ((max * 30.0) as usize).clamp(0, 39);` — the Rust
`as usize` cast truncates toward zero and saturates below at 0, which on the
nonnegative `max` is the floor. -/
def detectionLevel (cs : List ℚ) : ℕ := min (scaleTrunc (maxAbs cs)) 39

/-- Mirrors `let tone_detected = peak as f32 > threshold;`. -/
def toneDetected (cs : List ℚ) (threshold : ℚ) : Bool :=
  decide ((detectionLevel cs : ℚ) > threshold)

/-- Mirrors `float_samples.iter().skip(c).step_by(n_channels)`: the samples of
channel `c` out of `n` interleaved channels. -/
def channelSamples (samples : List ℚ) (c n : ℕ) : List ℚ :=
  (((samples.drop c).enum).filter (fun p => p.1 % n == 0)).map Prod.snd

/-- Abstract interface of the external `morse_codec::decoder::Decoder` as used
by the callback: `signal_event`, `signal_event_end`, reading `message` as text
and `message.clear()`.  The state type is abstract; theorems hold for every
implementation. -/
structure DecoderOps (σ : Type) where
  signalEvent : σ → ℕ → Bool → σ
  signalEventEnd : σ → Bool → σ
  message : σ → String
  clearMessage : σ → σ

/-- Events fed to the Morse decoder by one channel iteration. -/
inductive DecoderEvent where
  | signalEvent (durationMs : ℕ) (wasTonePresent : Bool)
  | signalEventEnd (flush : Bool)
deriving DecidableEq

/-- Whether an event is one of the two end-of-signal calls. -/
def DecoderEvent.isEnd : DecoderEvent → Bool
  | .signalEventEnd _ => true
  | _ => false

/-- The mutable state captured by the process closure: `last_signal_change`,
`last_signal_state` and the decoder. -/
structure PState (σ : Type) where
  lastSignalChange : ℕ
  lastSignalState : Bool
  decoder : σ
deriving DecidableEq

/-- Observable output of one channel iteration: strings written to stdout in
order, lines sent to the info log, and events fed to the decoder. -/
structure ChanOut where
  stdoutWrites : List String
  logLines : List String
  events : List DecoderEvent
deriving DecidableEq

/-- Value of `ChanOut` used as a lookup default. -/
def emptyOut : ChanOut := ⟨[], [], []⟩

/-- Result of the signal-change block: updated state, stdout writes, decoder
events, and the value of the frame-local `printed_message` afterwards. -/
structure ChangeOut (σ : Type) where
  st : PState σ
  writes : List String
  events : List DecoderEvent
  printed : String

/-- Mirrors lines 144-163 of the process closure.  The local `printed_message`
is created empty here on every channel of every frame.  On a tone-state change
a `signal_event` is fed to the decoder with the u16-truncated duration and the
previous state; then, when the normalized message is longer than
`printed_message`, the slice `&msg[printed_message.len()..printed_message.len() + 1]`
is printed and `printed_message` becomes the message. -/
def signalChangeStep {σ : Type} (ops : DecoderOps σ) (threshold : ℚ)
    (st : PState σ) (cs : List ℚ) (dur now : ℕ) : ChangeOut σ :=
  let printed0 : String := ""
  let tone := toneDetected (filteredSamples cs) threshold
  if tone ≠ st.lastSignalState then
    let d := ops.signalEvent st.decoder (asU16 dur) st.lastSignalState
    let msg := normalizeWs (ops.message d)
    if msg.length > printed0.length then
      ⟨⟨now, tone, d⟩, [(msg.drop printed0.length).take 1],
        [.signalEvent (asU16 dur) st.lastSignalState], msg⟩
    else
      ⟨⟨now, tone, d⟩, [], [.signalEvent (asU16 dur) st.lastSignalState], printed0⟩
  else ⟨st, [], [], printed0⟩

/-- Strip one trailing carriage return, as `str::lines` does per line. -/
def stripCR (l : String) : String :=
  if l.endsWith ("\r") then l.dropRight 1 else l

/-- Mirrors Rust `printed_message.lines()`: split at newline characters, the
final line ending optional, carriage returns before a newline removed. -/
def rustLines (s : String) : List String :=
  if s = "" then []
  else if s.endsWith ("\n") then ((s.splitOn ("\n")).dropLast).map stripCR
  else
    let parts := s.splitOn ("\n")
    parts.dropLast.map stripCR ++ parts.drop (parts.length - 1)

/-- Mirrors `(line.len() as f64 / terminal_width as f64).ceil() as usize` on
the integer sizes that occur. -/
def ceilDivNat (a b : ℕ) : ℕ := (a + b - 1) / b

/-- Mirrors lines 183-195: one cursor-up-and-clear write per wrapped line of
the previously printed message, then a final clear of the current line. -/
def clearWrites (printed : String) (width : ℕ) : List String :=
  List.replicate
    (((rustLines printed).map (fun l => ceilDivNat l.length width)).sum)
    "\r\x1B[K\x1B[1A" ++ ["\r\x1B[K"]

/-- Mirrors lines 165-205 of the process closure: the idle-timeout block,
reading the stale `duration` computed before the signal-change block. -/
def timeoutStep {σ : Type} (ops : DecoderOps σ) (dot : ℕ) (tw : Option ℕ)
    (c : ChangeOut σ) (dur now : ℕ) : PState σ × ChanOut :=
  if dur > timeoutDuration dot then
    let msg := normalizeWs (ops.message c.st.decoder)
    if msg ≠ "" then
      let d2 := ops.signalEventEnd c.st.decoder false
      let d3 := ops.signalEventEnd d2 true
      let msg2 := normalizeWs (ops.message d3)
      let w := if msg2 ≠ c.printed then clearWrites c.printed (tw.getD 80) else []
      (⟨now, false, ops.clearMessage d3⟩,
        ⟨c.writes ++ w, [msg2],
          c.events ++ [.signalEventEnd false, .signalEventEnd true]⟩)
    else (⟨now, false, c.st.decoder⟩, ⟨c.writes, [], c.events⟩)
  else (c.st, ⟨c.writes, [], c.events⟩)

/-- The signal-change block applied with the duration the closure computes at
line 142. -/
def changeOf {σ : Type} (ops : DecoderOps σ) (threshold : ℚ)
    (st : PState σ) (cs : List ℚ) (now : ℕ) : ChangeOut σ :=
  signalChangeStep ops threshold st cs (asU32 (now - st.lastSignalChange)) now

/-- One channel iteration of the process closure (lines 122-205). -/
def processChannel {σ : Type} (ops : DecoderOps σ) (threshold : ℚ) (dot : ℕ)
    (tw : Option ℕ) (st : PState σ) (cs : List ℚ) (now : ℕ) :
    PState σ × ChanOut :=
  timeoutStep ops dot tw (changeOf ops threshold st cs now)
    (asU32 (now - st.lastSignalChange)) now

/-- One dequeued audio buffer: a channel count and the data planes, each plane
optionally mapped (`data.data()` may be `None`). -/
structure AudioFrame where
  nChannels : ℕ
  datas : List (Option (List ℚ))

/-- Mirrors `for c in 0..n_channels`: the one shared decoder/signal state is
threaded through the channels in index order. -/
def processChannels {σ : Type} (ops : DecoderOps σ) (threshold : ℚ) (dot : ℕ)
    (tw : Option ℕ) (st : PState σ) (samples : List ℚ) (n now : ℕ) :
    PState σ × List ChanOut :=
  (List.range n).foldl
    (fun acc c =>
      let r := processChannel ops threshold dot tw acc.1
        (channelSamples samples c n) now
      (r.1, acc.2 ++ [r.2]))
    (st, [])

/-- One invocation of the process callback (lines 109-208): a `None` from
`dequeue_buffer` prints the out-of-buffers line; empty `datas` or an unmapped
first plane returns silently; otherwise every channel is processed. -/
def processTick {σ : Type} (ops : DecoderOps σ) (threshold : ℚ) (dot : ℕ)
    (tw : Option ℕ) (st : PState σ) (input : Option AudioFrame) (now : ℕ) :
    PState σ × List ChanOut :=
  match input with
  | none => (st, [⟨["Out of buffers\n"], [], []⟩])
  | some f =>
    match f.datas with
    | [] => (st, [])
    | d0 :: _ =>
      match d0 with
      | none => (st, [])
      | some samples => processChannels ops threshold dot tw st samples f.nChannels now

/-- Decoder instance whose message is always empty, for runs where the decoder
content is irrelevant. -/
def unitOps : DecoderOps Unit :=
  ⟨fun _ _ _ => (), fun _ _ => (), fun _ => "", fun _ => ()⟩

/-- Decoder instance modelled as its own message text, left unchanged by
events and emptied by `clearMessage`. -/
def constOps : DecoderOps String :=
  ⟨fun m _ _ => m, fun m _ => m, id, fun _ => ""⟩

/-- Decoder instance counting the events it received, with the message after
`n` events given by a table (`clearMessage` jumps to the sentinel state 99). -/
def tableOps (tbl : ℕ → String) : DecoderOps ℕ :=
  ⟨fun n _ _ => n + 1, fun n _ => n + 1, tbl, fun _ => 99⟩

/-- Message table for a decoder whose message grows "S" then "SO" over two
signal-change events. -/
def msgTable2 : ℕ → String :=
  fun n => if n = 1 then "S" else if n = 2 then "SO" else ""

/-- First frame of the incremental-echo run: tone appears, message becomes "S". -/
def c2Run1 : PState ℕ × ChanOut :=
  processChannel (tableOps msgTable2) 0 1000 none ⟨0, false, 0⟩ [1] 100

/-- Second frame of the incremental-echo run: tone disappears, message becomes
"SO". -/
def c2Run2 : PState ℕ × ChanOut :=
  processChannel (tableOps msgTable2) 0 1000 none c2Run1.1 [0] 200

/-- Message table for a finalization run: the pre-finalize message is "SO" and
after the two end-of-signal calls it is "SOS". -/
def msgTable4 : ℕ → String :=
  fun n => if n ≤ 1 then "SO" else if n = 2 then "SOS" else ""

/-- An idle-timeout frame finalizing the message "SOS" with no tone change. -/
def c4Res : PState ℕ × ChanOut :=
  processChannel (tableOps msgTable4) 0 100 none ⟨0, false, 0⟩ [0] 30000

/-- Modelled from the claim's words: `clamp(round(peak * SCALE), 0, MAX_LEVEL)`
with `SCALE = 30`, `MAX_LEVEL = 39`.  Rounding is computed on the numerator and
denominator so the definition evaluates by kernel reduction; the lemma
`specLevelRound_eq_round` certifies that it equals
`min (max (round (q * 30)) 0) 39`. -/
def specLevelRound (q : ℚ) : ℤ :=
  min (max ((2 * (q.num * 30) + (q.den : ℤ)) / (2 * (q.den : ℤ))) 0) 39

/-- An initial value is a lower bound of the peak fold. -/
theorem le_foldl_maxAbs (l : List ℚ) : ∀ a : ℚ, a ≤ l.foldl (fun m s => max m |s|) a := by
  induction l with
  | nil => intro a; simp
  | cons x xs ih => intro a; exact le_trans (le_max_left a |x|) (ih (max a |x|))

/-- The peak absolute amplitude is nonnegative. -/
theorem maxAbs_nonneg (cs : List ℚ) : 0 ≤ maxAbs cs := le_foldl_maxAbs cs 0

/-- Scaling by 30 written on numerator and denominator. -/
theorem rat_mul30_eq (q : ℚ) : q * 30 = ((q.num * 30 : ℤ) : ℚ) / ((q.den : ℕ) : ℚ) := by
  have hden : ((q.den : ℚ)) ≠ 0 := by exact_mod_cast q.den_nz
  rw [eq_div_iff hden]
  push_cast
  rw [mul_comm (q * 30) _, ← mul_assoc, Rat.den_mul_eq_num]

/-- On nonnegative inputs, `scaleTrunc` is the floor of `q * 30`, i.e. the
value of the truncating `as usize` cast. -/
theorem scaleTrunc_eq_floor (q : ℚ) (hq : 0 ≤ q) : scaleTrunc q = Nat.floor (q * 30) := by
  obtain ⟨m, hm⟩ := Int.eq_ofNat_of_zero_le (Rat.num_nonneg.mpr hq)
  have hfl : Nat.floor (q * 30) = (((q.num * 30 : ℤ) / (q.den : ℤ)) : ℤ).toNat := by
    rw [← Int.floor_toNat, rat_mul30_eq q, Rat.floor_intCast_div_natCast]
  have hcast : (q.num * 30 : ℤ) = ((m * 30 : ℕ) : ℤ) := by rw [hm]; push_cast; ring
  rw [hfl, scaleTrunc, hcast, ← Int.natCast_div, Int.toNat_natCast, Int.toNat_natCast]

/-- The computable `specLevelRound` is the claim's `clamp(round(peak * 30), 0, 39)`. -/
theorem specLevelRound_eq_round (q : ℚ) :
    specLevelRound q = min (max (round (q * 30)) 0) 39 := by
  have h : q * 30 + 1/2 =
      (((2 * (q.num * 30) + (q.den : ℤ)) : ℤ) : ℚ) / ((2 * q.den : ℕ) : ℚ) := by
    have hden2 : ((2 * q.den : ℕ) : ℚ) ≠ 0 := by positivity
    rw [eq_div_iff hden2]
    push_cast
    have hnum : (q.num : ℚ) = q * q.den := (Rat.mul_den_eq_num q).symm
    rw [hnum]
    ring
  have hround : round (q * 30) = (2 * (q.num * 30) + (q.den : ℤ)) / (2 * (q.den : ℤ)) := by
    rw [round_eq, h, Rat.floor_intCast_div_natCast]
    push_cast
    ring_nf
  rw [specLevelRound, hround]

/-- A space is whitespace. -/
theorem isWs_space : isWs ' ' = true := by decide

/-- Unfolding of `collapseAux` on a whitespace head with the flag set. -/
theorem collapseAux_true_cons_ws {c : Char} (h : isWs c = true) (r : List Char) :
    collapseAux true (c :: r) = collapseAux true r := by simp [collapseAux, h]

/-- Unfolding of `collapseAux` on a whitespace head with the flag clear. -/
theorem collapseAux_false_cons_ws {c : Char} (h : isWs c = true) (r : List Char) :
    collapseAux false (c :: r) = ' ' :: collapseAux true r := by simp [collapseAux, h]

/-- Unfolding of `collapseAux` on a non-whitespace head. -/
theorem collapseAux_cons_not_ws {c : Char} (h : ¬ isWs c = true) (b : Bool) (r : List Char) :
    collapseAux b (c :: r) = c :: collapseAux false r := by
  cases b <;> simp [collapseAux, h]

/-- The collapsing pass is idempotent, for either value of the flag. -/
theorem collapseAux_idem (l : List Char) :
    collapseAux true (collapseAux true l) = collapseAux true l ∧
      collapseAux false (collapseAux false l) = collapseAux false l := by
  induction l with
  | nil => exact ⟨rfl, rfl⟩
  | cons c r ih =>
    by_cases h : isWs c = true
    · refine ⟨?_, ?_⟩
      · rw [collapseAux_true_cons_ws h, ih.1]
      · rw [collapseAux_false_cons_ws h, collapseAux_false_cons_ws isWs_space, ih.1]
    · refine ⟨?_, ?_⟩
      · rw [collapseAux_cons_not_ws h, collapseAux_cons_not_ws h, ih.2]
      · rw [collapseAux_cons_not_ws h, collapseAux_cons_not_ws h, ih.2]

/-- The decoder events of the timeout block are those of the change block plus,
exactly when the timeout fires on a nonempty normalized message, the ordered
pair of end-of-signal calls. -/
theorem timeoutStep_events {σ : Type} (ops : DecoderOps σ) (dot : ℕ) (tw : Option ℕ)
    (c : ChangeOut σ) (dur now : ℕ) :
    (timeoutStep ops dot tw c dur now).2.events =
      c.events ++
        (if dur > timeoutDuration dot ∧ normalizeWs (ops.message c.st.decoder) ≠ "" then
          [DecoderEvent.signalEventEnd false, DecoderEvent.signalEventEnd true]
        else []) := by
  unfold timeoutStep
  split_ifs with h1 h2 <;> simp_all

/-- The change block emits no event or exactly one `signal_event`. -/
theorem signalChangeStep_events {σ : Type} (ops : DecoderOps σ) (threshold : ℚ)
    (st : PState σ) (cs : List ℚ) (dur now : ℕ) :
    (signalChangeStep ops threshold st cs dur now).events = [] ∨
      ∃ d b, (signalChangeStep ops threshold st cs dur now).events =
        [DecoderEvent.signalEvent d b] := by
  unfold signalChangeStep
  dsimp only
  split_ifs with h1 h2
  · exact Or.inr ⟨_, _, rfl⟩
  · exact Or.inr ⟨_, _, rfl⟩
  · exact Or.inl rfl

/-- Claim C1 (code bug): the samples whose peak drives tone detection are the
raw channel samples.  `filtered_samples` is a plain alias of `channel_samples`
and the `BandpassFilter` built in `param_changed` is never invoked in the
process closure, so the detection level is
`clamp(trunc(peakOfRawSamples * 30), 0, 39)`. -/
theorem c1_peak_computed_from_raw_samples (cs : List ℚ) :
    filteredSamples cs = cs ∧
      detectionLevel (filteredSamples cs) = min (Nat.floor (maxAbs cs * 30)) 39 :=
  ⟨rfl, by rw [filteredSamples, detectionLevel, scaleTrunc_eq_floor _ (maxAbs_nonneg cs)]⟩

/-- Claim C2 (code bug): with the decoder message growing "S" then "SO" over
two signal-change events, the terminal writes are "S" then "S" — the first
character both times, not the newly appended "O" — because `printed_message`
is re-created empty on every frame, so the printed slice is always
`&msg[0..1]`. -/
theorem c2_echo_repeats_first_char :
    c2Run1.2.stdoutWrites = ["S"] ∧ c2Run2.2.stdoutWrites = ["S"] := by decide

/-- Claim C3 counterexample: with the stored state tone-present and the tone
still detected (no transition in this frame), an idle timeout of 3000 ms with
`dot_duration = 100` still emits both end-of-signal events — the code has no
tone-absent guard on the timeout branch. -/
theorem c3_idle_timeout_fires_when_tone_present :
    (⟨0, true, "E"⟩ : PState String).lastSignalState = true ∧
      toneDetected (filteredSamples [1]) 0 = true ∧
      (processChannel constOps 0 100 none (⟨0, true, "E"⟩ : PState String) [1] 3000).2.events =
        [DecoderEvent.signalEventEnd false, DecoderEvent.signalEventEnd true] := by decide

/-- Claim C3 amended: whenever the stale duration exceeds `20 * dot_duration`,
the idle-timeout block runs regardless of the current tone state, resetting
`last_signal_change` to the current instant and the stored tone state to
`false`. -/
theorem c3_timeout_resets {σ : Type} (ops : DecoderOps σ) (threshold : ℚ)
    (dot : ℕ) (tw : Option ℕ) (st : PState σ) (cs : List ℚ) (now : ℕ)
    (h : asU32 (now - st.lastSignalChange) > timeoutDuration dot) :
    (processChannel ops threshold dot tw st cs now).1.lastSignalChange = now ∧
      (processChannel ops threshold dot tw st cs now).1.lastSignalState = false := by
  unfold processChannel timeoutStep
  dsimp only
  rw [if_pos h]
  split_ifs <;> exact ⟨rfl, rfl⟩

/-- Witness for `c3_timeout_resets` at a concrete input. -/
theorem c3_timeout_resets_witness :
    (processChannel constOps 0 100 none (⟨0, true, "E"⟩ : PState String) [1] 3000).1.lastSignalChange = 3000 ∧
      (processChannel constOps 0 100 none (⟨0, true, "E"⟩ : PState String) [1] 3000).1.lastSignalState = false :=
  c3_timeout_resets constOps 0 100 none ⟨0, true, "E"⟩ [1] 3000 (by decide)

/-- Claim C4 (code bug): an idle timeout finalizing "SOS" (pre-finalize message
"SO") writes only the single clear-current-line sequence to stdout: the redraw
compares against the always-empty frame-local `printed_message`, clears zero
wrapped lines of it, and never writes the finalized text to stdout — the text
goes only to the info log. -/
theorem c4_finalize_clears_nothing_prints_nothing :
    c4Res.2.stdoutWrites = ["\r\x1B[K"] ∧
      c4Res.2.logLines = ["SOS"] ∧
      ¬ "SOS" ∈ c4Res.2.stdoutWrites := by decide

/-- Claim C5 counterexample: two frames whose channel-1 samples are identical
(`[0]` in both) produce different channel-1 events, because the shared
`last_signal_state` was flipped by channel 0's tone in the first frame. -/
theorem c5_channel_one_depends_on_channel_zero :
    channelSamples [1, 0] 1 2 = channelSamples [0, 0] 1 2 ∧
      ((processTick unitOps 0 100 none (⟨0, false, ()⟩ : PState Unit)
          (some ⟨2, [some [1, 0]]⟩) 50).2.getD 1 emptyOut).events ≠
        ((processTick unitOps 0 100 none (⟨0, false, ()⟩ : PState Unit)
          (some ⟨2, [some [0, 0]]⟩) 50).2.getD 1 emptyOut).events := by decide

/-- Claim C5 amended: the channels of a frame are processed sequentially
against one shared decoder/signal state — channel 1 starts from the state
produced by channel 0's processing, so per-channel outcomes may depend on the
other channel's samples. -/
theorem c5_channels_thread_shared_state {σ : Type} (ops : DecoderOps σ)
    (threshold : ℚ) (dot : ℕ) (tw : Option ℕ) (st : PState σ)
    (samples : List ℚ) (now : ℕ) :
    processTick ops threshold dot tw st (some ⟨2, [some samples]⟩) now =
      ((processChannel ops threshold dot tw
          (processChannel ops threshold dot tw st (channelSamples samples 0 2) now).1
          (channelSamples samples 1 2) now).1,
        [(processChannel ops threshold dot tw st (channelSamples samples 0 2) now).2,
          (processChannel ops threshold dot tw
            (processChannel ops threshold dot tw st (channelSamples samples 0 2) now).1
            (channelSamples samples 1 2) now).2]) := by
  show processChannels ops threshold dot tw st samples 2 now = _
  unfold processChannels
  rw [show List.range 2 = [0, 1] from rfl]
  simp [List.foldl]

/-- Claim C6 counterexample: at peak amplitude 3/50 (= 0.06) the code's level
is `trunc(1.8) = 1`, while the claim's `clamp(round(1.8), 0, 39)` is 2. -/
theorem c6_trunc_differs_from_round :
    (detectionLevel [mkRat 3 50] : ℤ) ≠ specLevelRound (maxAbs [mkRat 3 50]) := by decide

/-- Claim C6 amended: the level is the clamp of the TRUNCATED product — the
floor of `peak * 30`, since the peak is nonnegative — not of the rounded one,
and the tone is reported present iff `level > threshold` strictly. -/
theorem c6_level_trunc_and_strict_threshold (cs : List ℚ) (threshold : ℚ) :
    0 ≤ maxAbs cs ∧
      detectionLevel cs = min (Nat.floor (maxAbs cs * 30)) 39 ∧
      (toneDetected cs threshold = true ↔ (detectionLevel cs : ℚ) > threshold) := by
  refine ⟨maxAbs_nonneg cs, ?_, by simp [toneDetected]⟩
  rw [detectionLevel, scaleTrunc_eq_floor _ (maxAbs_nonneg cs)]

/-- Claim C7: in any single channel iteration the decoder receives an optional
signal-change event followed — exactly when the idle timeout fires on a
nonempty normalized message — by the ordered pair `signal_event_end(false)`,
`signal_event_end(true)`; in particular a flush call is never issued without
an immediately preceding non-flush call, and finalization always issues
exactly the two calls in that order. -/
theorem c7_end_events_paired {σ : Type} (ops : DecoderOps σ) (threshold : ℚ)
    (dot : ℕ) (tw : Option ℕ) (st : PState σ) (cs : List ℚ) (now : ℕ) :
    ∃ pre,
      (pre = [] ∨ ∃ d b, pre = [DecoderEvent.signalEvent d b]) ∧
      (processChannel ops threshold dot tw st cs now).2.events =
        pre ++
          (if asU32 (now - st.lastSignalChange) > timeoutDuration dot ∧
              normalizeWs (ops.message (changeOf ops threshold st cs now).st.decoder) ≠ "" then
            [DecoderEvent.signalEventEnd false, DecoderEvent.signalEventEnd true]
          else []) := by
  refine ⟨(changeOf ops threshold st cs now).events, ?_, ?_⟩
  · exact signalChangeStep_events ops threshold st cs _ now
  · exact timeoutStep_events ops dot tw _ _ now

/-- Claim C8 counterexample: on a `None` buffer the process callback leaves all
state unchanged but does print — the out-of-buffers line goes to stdout,
contradicting "nothing is logged or printed". -/
theorem c8_none_tick_prints :
    (processTick unitOps 0 100 none (⟨0, false, ()⟩ : PState Unit) none 0).1 = ⟨0, false, ()⟩ ∧
      ((processTick unitOps 0 100 none (⟨0, false, ()⟩ : PState Unit) none 0).2.getD 0
        emptyOut).stdoutWrites ≠ [] := by decide

/-- Claim C8 amended: a `None` buffer leaves the decoder and signal state
unchanged, emits no decoder events and no log line, but prints
"Out of buffers" to stdout. -/
theorem c8_none_prints_out_of_buffers {σ : Type} (ops : DecoderOps σ)
    (threshold : ℚ) (dot : ℕ) (tw : Option ℕ) (st : PState σ) (now : ℕ) :
    processTick ops threshold dot tw st none now =
      (st, [⟨["Out of buffers\n"], [], []⟩]) := rfl

/-- Claim C9: the whitespace normalization applied by the callback is
idempotent — normalizing twice equals normalizing once, for every string. -/
theorem c9_normalize_idempotent (s : String) :
    normalizeWs (normalizeWs s) = normalizeWs s :=
  congrArg String.mk (collapseAux_idem s.data).2

/-- Claim C10: under an idle timeout, when the normalized message is empty
(and no tone transition occurred this frame) the channel iteration only resets
`last_signal_change` and the stored tone state, emitting no decoder event, no
stdout write and no log line; when the normalized message is nonempty, the
two end-of-signal calls are issued, the post-finalize normalized message is
logged, and the decoder message buffer is cleared. -/
theorem c10_finalize_only_when_nonempty {σ : Type} (ops : DecoderOps σ)
    (threshold : ℚ) (dot : ℕ) (tw : Option ℕ) (st : PState σ) (cs : List ℚ) (now : ℕ)
    (h : asU32 (now - st.lastSignalChange) > timeoutDuration dot) :
    (normalizeWs (ops.message (changeOf ops threshold st cs now).st.decoder) = "" ∧
        toneDetected (filteredSamples cs) threshold = st.lastSignalState →
      processChannel ops threshold dot tw st cs now =
        (⟨now, false, st.decoder⟩, ⟨[], [], []⟩)) ∧
    (normalizeWs (ops.message (changeOf ops threshold st cs now).st.decoder) ≠ "" →
      (processChannel ops threshold dot tw st cs now).2.events.filter DecoderEvent.isEnd =
          [DecoderEvent.signalEventEnd false, DecoderEvent.signalEventEnd true] ∧
        (processChannel ops threshold dot tw st cs now).2.logLines =
          [normalizeWs (ops.message (ops.signalEventEnd
            (ops.signalEventEnd (changeOf ops threshold st cs now).st.decoder false) true))] ∧
        (processChannel ops threshold dot tw st cs now).1.decoder =
          ops.clearMessage (ops.signalEventEnd
            (ops.signalEventEnd (changeOf ops threshold st cs now).st.decoder false) true)) := by
  constructor
  · rintro ⟨hmsg, htone⟩
    have hchg : changeOf ops threshold st cs now = ⟨st, [], [], ""⟩ := by
      unfold changeOf signalChangeStep
      dsimp only
      rw [if_neg]
      simp [htone]
    unfold processChannel timeoutStep
    rw [hchg] at hmsg ⊢
    dsimp only at hmsg ⊢
    rw [if_pos h, if_neg (by simpa using hmsg)]
  · intro hmsg
    have hshape := signalChangeStep_events ops threshold st cs
      (asU32 (now - st.lastSignalChange)) now
    unfold processChannel timeoutStep
    dsimp only
    rw [if_pos h, if_pos hmsg]
    refine ⟨?_, rfl, rfl⟩
    rcases hshape with h0 | ⟨d, b, hde⟩
    · rw [show (changeOf ops threshold st cs now).events = [] from h0]
      rfl
    · rw [show (changeOf ops threshold st cs now).events = [DecoderEvent.signalEvent d b] from hde]
      rfl

/-- Witness for `c10_finalize_only_when_nonempty` at concrete inputs: an empty
message under timeout yields the pure reset, and a nonempty message "HI" is
finalized, logged and cleared. -/
theorem c10_finalize_only_when_nonempty_witness :
    processChannel unitOps 0 100 none (⟨0, false, ()⟩ : PState Unit) [0] 3000 =
        (⟨3000, false, ()⟩, ⟨[], [], []⟩) ∧
      ((processChannel constOps 0 100 none (⟨0, false, "HI"⟩ : PState String) [0] 3000).2.events.filter DecoderEvent.isEnd =
          [DecoderEvent.signalEventEnd false, DecoderEvent.signalEventEnd true] ∧
        (processChannel constOps 0 100 none (⟨0, false, "HI"⟩ : PState String) [0] 3000).2.logLines =
          [normalizeWs (constOps.message (constOps.signalEventEnd
            (constOps.signalEventEnd (changeOf constOps 0 ⟨0, false, "HI"⟩ [0] 3000).st.decoder false) true))] ∧
        (processChannel constOps 0 100 none (⟨0, false, "HI"⟩ : PState String) [0] 3000).1.decoder =
          constOps.clearMessage (constOps.signalEventEnd
            (constOps.signalEventEnd (changeOf constOps 0 ⟨0, false, "HI"⟩ [0] 3000).st.decoder false) true)) :=
  ⟨(c10_finalize_only_when_nonempty unitOps 0 100 none ⟨0, false, ()⟩ [0] 3000
      (by decide)).1 ⟨by decide, by decide⟩,
    (c10_finalize_only_when_nonempty constOps 0 100 none ⟨0, false, "HI"⟩ [0] 3000
      (by decide)).2 (by decide)⟩
